import Mathlib

/-!
Verification of the P034b experimental program (`P034_ExpProgram_RP.py`)
against its natural-language specification.

The Python source is shallowly embedded: the per-trial state machine of
`MainScreen` (ready signal, sample-key loop, delay, choice, feedback,
reinforcement / timeout) becomes a step function on an explicit state record;
the stimulus-queue construction, the delay-duration draw, the autoshaping
target list, the session-termination check and the data-row writer become
plain Lean functions translated line by line from the source.  Randomness
(`random.choice`, `random.shuffle`) is modelled by passing the drawn value as
an explicit parameter, or by reasoning about the list that the draw is made
from (membership / element counts), since `choice` picks uniformly among list
elements and `shuffle` permutes a list.
-/

namespace P034

/-! ## Constants from `MainScreen.__init__` -/

/-- `self.control_feedback_color = "dark slate gray"` (line 486). -/
def control_feedback_color : String := "dark slate gray"

/-- `self.left_comp_color = "green"` (line 487). -/
def left_comp_color : String := "green"

/-- `self.right_comp_color = "red"` (line 488). -/
def right_comp_color : String := "red"

/-- `self.max_number_of_reinforced_trials = 96` (line 473). -/
def max_number_of_reinforced_trials : Nat := 96

/-- `self.non_CP_trials = 1` (line 467): the non-correction-procedure trial
counter starts at 1, not 0. -/
def init_non_CP_trials : Nat := 1

/-! ## Key tags and the current key-stimulus dictionary -/

/-- The three key tags used by `build_keys` / `key_press`. -/
inductive KeyTag where
  | left_comparison_key
  | right_comparison_key
  | sample_key
deriving DecidableEq, Repr

/-- The Python name of a key tag (used in log labels such as
`f"non_active_{keytag}_peck"`). -/
def KeyTag.name : KeyTag → String
  | .left_comparison_key => "left_comparison_key"
  | .right_comparison_key => "right_comparison_key"
  | .sample_key => "sample_key"

/-- `self.current_key_stimulus_dict`: the fill value (a color name or a
stimulus file name) currently assigned to each of the three keys. -/
structure KeyDict where
  left_comparison_key : String
  right_comparison_key : String
  sample_key : String
deriving DecidableEq, Repr

/-- Dictionary lookup `self.current_key_stimulus_dict[keytag]`. -/
def KeyDict.get : KeyDict → KeyTag → String
  | d, .left_comparison_key => d.left_comparison_key
  | d, .right_comparison_key => d.right_comparison_key
  | d, .sample_key => d.sample_key

/-! ## `calculate_trial_key_stimuli` (lines 972-1015)

Direct translation.  The one random draw inside this function
(`choice([self.sample_stimulus, "white"])`, line 990, autoshaping after 15
trials) is passed in as the explicit parameter `as_sample_pick`. -/

def calculate_trial_key_stimuli (training_phase trial_stage : Nat)
    (illuminated_key : KeyTag) (current_trial_counter : Nat)
    (sample_stimulus exp_condition feedback_stimulus : String)
    (stimulus_set_num : Nat) (as_sample_pick : String) : KeyDict :=
  -- "It always starts by resetting the color list to default"
  let d : KeyDict := ⟨"black", "black", "black"⟩
  let d :=
    if training_phase = 2 then -- If autoshaping...
      match illuminated_key with
      | .left_comparison_key => { d with left_comparison_key := left_comp_color }
      | .right_comparison_key => { d with right_comparison_key := right_comp_color }
      | .sample_key =>
        if current_trial_counter > 15 then { d with sample_key := as_sample_pick }
        else { d with sample_key := sample_stimulus }
    else if trial_stage = 0 then { d with sample_key := "white" }
    else d
  let d :=
    if trial_stage = 1 ∨ (trial_stage = 3 ∧ training_phase = 0) then
      { d with sample_key := sample_stimulus }
    else d
  if trial_stage = 3 ∧ training_phase ≠ 3 then -- works for DMTO and MTO
    { d with left_comparison_key := left_comp_color,
             right_comparison_key := right_comp_color }
  else if trial_stage = 4 then -- only works for DMTO
    if exp_condition = "E" ∧ stimulus_set_num = 1 then
      { d with sample_key := control_feedback_color }
    else
      { d with sample_key := feedback_stimulus }
  else d

/-! ## Trial-queue pass construction (`first_ITI`, lines 635-644)

One row of `self.stimuli_identity_d_list` as far as pass construction is
concerned: a stimulus `Name` and its `Key` tag.  Eligibility for trials is
`"S" not in i["Key"]`; since `"S"` is a single character, the Python
substring test is character containment. -/

structure StimIdRow where
  Name : String
  Key : String
deriving DecidableEq, Repr

/-- The Python membership test `"S" in key`: the character `'S'` occurs
among the characters of `key`. -/
def keyHasS (key : String) : Bool := key.data.contains 'S'

/-- The eligible stimulus names, in list order: the inner
`for i in self.stimuli_identity_d_list: if "S" not in i["Key"]:
set_of_trials.append(i["Name"])`. -/
def eligibleNames (rows : List StimIdRow) : List String :=
  (rows.filter (fun r => ! keyHasS r.Key)).map (fun r => r.Name)

/-- The inner `while len(set_of_trials) < len(self.stimuli_identity_d_list)`
loop, fuelled (each iteration appends one full sweep of the eligible names;
the fuel is ample because each sweep adds at least one element whenever any
stimulus is eligible). -/
def set_of_trials_loop : Nat → List String → Nat → List String → List String
  | 0, _, _, acc => acc
  | fuel + 1, names, bound, acc =>
    if acc.length < bound then set_of_trials_loop fuel names bound (acc ++ names)
    else acc

/-- One pass `set_of_trials` as built by lines 637-641, before `shuffle` is
applied.  `shuffle` permutes the list in place, so element counts in the
appended pass equal element counts in this list. -/
def set_of_trials (rows : List StimIdRow) : List String :=
  set_of_trials_loop (rows.length + 1) (eligibleNames rows) rows.length []

/-! ## Delay-duration draw (`ITI`, line 726) -/

/-- Python `list(range(a, b))`. -/
def pythonRange (a b : Nat) : List Nat := (List.range (b - a)).map (a + ·)

/-- The list the per-trial delay duration is drawn from:
`self.trial_delay_duration = choice(list(range(2,5))) * 1000` (line 726);
`choice` picks uniformly among the elements, and each element is scaled to
milliseconds. -/
def trial_delay_duration_choices : List Nat := (pythonRange 2 5).map (· * 1000)

/-- The list the per-trial feedback duration is drawn from
(`feedback_stage`, line 861): `choice(list(range(2,5))) * 1000`. -/
def feedback_duration_choices : List Nat := (pythonRange 2 5).map (· * 1000)

/-! ## Autoshaping illuminated-key draw (`ITI`, lines 749-756) -/

/-- The option list `as_options` that `self.illuminated_key =
choice(as_options)` draws from, as a function of `self.current_trial_counter`
at the time of the draw (the counter is incremented only afterwards, line
761, so it equals the number of elapsed trials). -/
def as_options (current_trial_counter : Nat) : List String :=
  let opts := ["left_comparison_key", "right_comparison_key", "sample_key"]
  if current_trial_counter > 15 then opts ++ ["sample_key"] else opts

/-! ## Session-termination check (`ITI`, lines 688-692) -/

/-- `if self.non_CP_trials > self.max_number_of_reinforced_trials:` —
the check run at the top of every ITI; `true` triggers `exit_program`. -/
def shouldTerminate (non_CP_trials : Nat) : Bool :=
  decide (non_CP_trials > max_number_of_reinforced_trials)

/-! ## Per-trial ITI feedback assignment (`ITI`, lines 735-743)

`self.exp_condition` has already been reset to the group letter of the
trial's sample (line 733) when this chain runs.  The set-10 random draw
`choice(i_dict["Feedback"])` is passed in as `rowFeedbackPick`. -/

def iti_feedback_stimulus (stimulus_set_num : Nat) (exp_condition : String)
    (rowFeedback rowFeedbackPick fb_old : String) : String :=
  if stimulus_set_num ∈ [5, 6, 7, 8, 9, 13, 14, 15] then rowFeedback
  else if stimulus_set_num = 10 then rowFeedbackPick
  else if stimulus_set_num ∈ [16, 17] ∧ exp_condition = "C" then "TBD"
  else if stimulus_set_num ∈ [16, 17] ∧ exp_condition = "E" then rowFeedback
  else fb_old

/-! ## Per-trial ITI condition assignment (`ITI`, lines 731-734) -/

/-- A full row of the stimulus-assignment table as used by the ITI loop. -/
structure StimFullRow where
  Name : String
  Key : String
  Group : String
deriving DecidableEq, Repr

/-- The loop `for i_dict in self.stimuli_identity_d_list: if i_dict["Name"] ==
self.sample_stimulus: self.exp_condition = i_dict["Group"][0]` — every row is
scanned, the last matching row wins, and `Group[0]` is the one-character
prefix of the group tag. -/
def iti_assign_condition (rows : List StimFullRow) (sample cond0 : String) :
    String :=
  rows.foldl (fun acc r => if r.Name = sample then r.Group.take 1 else acc) cond0

/-! ## The per-trial state machine

`MainScreen` drives each trial through its substages via recursive Tkinter
callbacks.  We embed the per-trial part as an explicit state record plus a
step function on discrete events.  `self.trial_stage` codes: 0 = ready
signal, 1 = sample-key loop, 2 = delay, 3 = choice ("matching"), 4 =
feedback; the two terminal outcomes (`provide_food` / `time_out_func`) are
recorded in `terminal`.  Scheduled `root.after` callbacks (the delay timer,
the feedback timer, the autoshaping ceiling timer) fire at most once and only
after being scheduled; this is modelled by pending flags: a timer event with
no pending timer is a no-op, mirroring the fact that an unscheduled callback
cannot fire.  The event log keeps the `outcome` tags passed to
`write_data`. -/

structure TrialState where
  training_phase : Nat
  stimulus_set_num : Nat
  trial_stage : Nat
  trial_FR : Nat
  sample_key_FR : Nat
  sample_stimulus : String
  correct_key : String
  exp_condition : String
  feedback_stimulus : String
  control_correct_feedback : String
  control_incorrect_feedback : String
  illuminated_key : KeyTag
  current_trial_counter : Nat
  non_CP_trials : Nat
  as_sample_pick : String
  current_dict : KeyDict
  pending_delay : Bool
  pending_feedback : Option Bool
  pending_auto : Bool
  terminal : Option Bool
  log : List String
deriving DecidableEq, Repr

/-- `write_data(event, outcome)` appends one row; the machine log keeps the
outcome tag (the full row shape is embedded separately as `DataRow`). -/
def write_data (s : TrialState) (outcome : String) : TrialState :=
  { s with log := s.log ++ [outcome] }

/-- The key dict `calculate_trial_key_stimuli` would produce in state `s`. -/
def TrialState.calcDict (s : TrialState) : KeyDict :=
  calculate_trial_key_stimuli s.training_phase s.trial_stage s.illuminated_key
    s.current_trial_counter s.sample_stimulus s.exp_condition
    s.feedback_stimulus s.stimulus_set_num s.as_sample_pick

/-- `build_keys` (lines 870-970): unless in the set-11 control feedback
degenerate case it recomputes `current_key_stimulus_dict` via
`calculate_trial_key_stimuli` and, in the autoshaping phase, starts the
auto-reinforcer ceiling timer. -/
def build_keys (s : TrialState) : TrialState :=
  if ¬ (s.trial_stage = 4 ∧ s.stimulus_set_num = 11 ∧ s.exp_condition = "C") then
    let s := { s with current_dict := s.calcDict }
    if s.training_phase = 2 then { s with pending_auto := true } else s
  else s

/-- `ready_signal_phase` (lines 796-803). -/
def ready_signal_phase (s : TrialState) : TrialState :=
  build_keys { s with trial_stage := 0 }

/-- `sample_key_loop(passed_FR)` (lines 812-819). -/
def sample_key_loop (s : TrialState) (passed_FR : Nat) : TrialState :=
  build_keys { s with trial_FR := passed_FR, trial_stage := 1 }

/-- `ready_signal_press` (lines 805-809). -/
def ready_signal_press (s : TrialState) : TrialState :=
  let s := write_data s "ready_signal_press"
  sample_key_loop s s.sample_key_FR

/-- `delay_stage` (lines 843-848): enters stage 2 and schedules the delay
timer (`self.delay_timer = self.root.after(..., self.matching_stage)`). -/
def delay_stage (s : TrialState) : TrialState :=
  let s := build_keys { s with trial_stage := 2 }
  { s with pending_delay := true }

/-- `matching_stage` (lines 850-853): the choice stage. -/
def matching_stage (s : TrialState) : TrialState :=
  build_keys { s with trial_stage := 3 }

/-- `provide_food(key_pecked)` (lines 1080-1114): logs
`"reinforcer_provided"`, increments the non-correction trial counter, logs
`"auto_reinforcer_provided"` when auto-reinforced, and ends the trial
(the hopper interval then leads back to the ITI). -/
def provide_food (s : TrialState) (key_pecked : Bool) : TrialState :=
  let s := write_data s "reinforcer_provided"
  let s := { s with non_CP_trials := s.non_CP_trials + 1 }
  let s := if key_pecked then s else write_data s "auto_reinforcer_provided"
  { s with terminal := some true }

/-- `time_out_func` (lines 1116-1149): logs `"time_out"`, increments the
non-correction trial counter, and ends the trial with the timeout outcome. -/
def time_out_func (s : TrialState) : TrialState :=
  let s := write_data s "time_out"
  let s := { s with non_CP_trials := s.non_CP_trials + 1 }
  { s with terminal := some false }

/-- `feedback_stage(correct)` (lines 855-868): enters stage 4; for stimulus
sets 3 and 12 in the control condition no feedback keys are rebuilt
(`feedback_duration = 1`), otherwise `build_keys` runs; then the feedback
timer is scheduled carrying the correctness flag. -/
def feedback_stage (s : TrialState) (correct : Bool) : TrialState :=
  let s := { s with trial_stage := 4 }
  let s :=
    if s.stimulus_set_num ∈ [3, 12] ∧ s.exp_condition = "C" then s
    else build_keys s
  { s with pending_feedback := some correct }

/-- `sample_key_press` (lines 821-841). -/
def sample_key_press (s : TrialState) : TrialState :=
  if s.trial_stage = 1 then
    let s := write_data s "sample_key_press"
    if s.trial_FR ≤ 1 then
      let s := build_keys s
      if s.training_phase = 1 then delay_stage s
      else if s.training_phase = 0 then matching_stage s
      else s
    else
      let s := { s with trial_FR := s.trial_FR - 1 }
      sample_key_loop s s.trial_FR
  else
    write_data s "nonactive_sample_key_press"

/-- `f"non_active_{keytag}_peck"`. -/
def nonActivePeckLabel (k : KeyTag) : String :=
  "non_active_" ++ k.name ++ "_peck"

/-- `f"auto_shaping_active_{keytag}_peck"`. -/
def autoShapingPeckLabel (k : KeyTag) : String :=
  "auto_shaping_active_" ++ k.name ++ "_peck"

/-- `key_press(event, keytag)` (lines 1030-1073). -/
def key_press (s : TrialState) (keytag : KeyTag) : TrialState :=
  if s.current_dict.get keytag = "black" then
    write_data s (nonActivePeckLabel keytag)
  else if s.training_phase = 2 then
    let s := write_data s (autoShapingPeckLabel keytag)
    let s := { s with pending_auto := false } -- after_cancel(self.auto_timer)
    provide_food s true
  else if s.current_dict.get keytag = "white" then
    ready_signal_press s
  else if keytag = .sample_key then
    sample_key_press s
  else
    if s.trial_stage = 3 then
      if (s.current_dict.get keytag = "red" ∧ s.correct_key = "R")
          ∨ (s.current_dict.get keytag = "green" ∧ s.correct_key = "L") then
        let s := write_data s "correct_choice"
        let s :=
          if s.stimulus_set_num ∈ [16, 17] ∧ s.exp_condition = "C" then
            { s with feedback_stimulus := s.control_correct_feedback }
          else s
        if s.training_phase = 1 then feedback_stage s true
        else provide_food s true
      else
        let s := write_data s "incorrect_choice"
        let s :=
          if s.stimulus_set_num ∈ [16, 17] ∧ s.exp_condition = "C" then
            { s with feedback_stimulus := s.control_incorrect_feedback }
          else s
        if s.training_phase = 1 then feedback_stage s false
        else time_out_func s
    else
      write_data s (nonActivePeckLabel keytag)

/-- The discrete events driving a trial: key presses delivered by the
rendering layer and the expiries of the three scheduled timers. -/
inductive Event where
  | key_press (k : KeyTag)
  | delay_timer
  | feedback_timer
  | auto_timer
deriving DecidableEq, Repr

/-- One event step.  Once the trial has reached a terminal outcome the canvas
has been cleared and the trial's bindings removed, so further events do not
touch the trial state; a timer event only fires if that timer is pending. -/
def step (s : TrialState) (e : Event) : TrialState :=
  if s.terminal.isSome then s
  else
    match e with
    | .key_press k => key_press s k
    | .delay_timer =>
      if s.pending_delay then matching_stage { s with pending_delay := false }
      else s
    | .feedback_timer =>
      match s.pending_feedback with
      | some b =>
        let s := { s with pending_feedback := none }
        if b then provide_food s true else time_out_func s
      | none => s
    | .auto_timer =>
      if s.pending_auto then provide_food { s with pending_auto := false } false
      else s

/-- Run a list of events in arrival order. -/
def run (s : TrialState) : List Event → TrialState
  | [] => s
  | e :: rest => run (step s e) rest

/-- The named substages of a trial, terminal outcomes included. -/
inductive Phase where
  | ready
  | sample
  | delay
  | choice
  | feedback
  | reinforced
  | timedout
deriving DecidableEq, Repr

/-- The substage a state is in. -/
def TrialState.phase (s : TrialState) : Phase :=
  match s.terminal with
  | some true => .reinforced
  | some false => .timedout
  | none =>
    if s.trial_stage = 0 then .ready
    else if s.trial_stage = 1 then .sample
    else if s.trial_stage = 2 then .delay
    else if s.trial_stage = 3 then .choice
    else .feedback

/-- The sequence of substages visited while running `evs` from `s`:
the current substage followed by each substage change, in order. -/
def visitedFrom (s : TrialState) : List Event → List Phase
  | [] => [s.phase]
  | e :: rest =>
    let s' := step s e
    if s'.phase = s.phase then visitedFrom s' rest
    else s.phase :: visitedFrom s' rest

/-- A fresh DMTO trial (training phase 1) at the start of its ready-signal
stage, as set up by the ITI and `ready_signal_phase`. -/
def initDMTO (setNum : Nat) (sample ck cond fb ccf cif : String)
    (n counter nonCP : Nat) : TrialState :=
  ready_signal_phase
    { training_phase := 1
      stimulus_set_num := setNum
      trial_stage := 0
      trial_FR := 0
      sample_key_FR := n
      sample_stimulus := sample
      correct_key := ck
      exp_condition := cond
      feedback_stimulus := fb
      control_correct_feedback := ccf
      control_incorrect_feedback := cif
      illuminated_key := .sample_key
      current_trial_counter := counter
      non_CP_trials := nonCP
      as_sample_pick := "white"
      current_dict := ⟨"black", "black", "black"⟩
      pending_delay := false
      pending_feedback := none
      pending_auto := false
      terminal := none
      log := [] }

/-! ## The event-log row (`write_data`, lines 1225-1268)

The full 21-column row.  Wall-clock quantities (session time, the two trial
timers, the press coordinates, the date) are parameters: they come from the
environment, not from the trial logic. -/

structure DataRow where
  sessionTime : String
  xcord : String
  ycord : String
  event : String
  correctionTrial : String
  sampleStimulus : String
  correctKey : String
  stimulusCondition : String
  trialSubStage : Nat
  trialTime : Int
  trialSubStageTimer : Int
  trialNum : Nat
  nonCPTrialNum : Nat
  delayDuration : Nat
  feedbackDuration : String
  sampleFR : Nat
  subject : String
  expCondition : String
  trainingPhase : Nat
  stimulusSetNum : Nat
  date : String
deriving DecidableEq, Repr

/-- The row `write_data` appends to `self.session_data_frame`, field by field
in source order.  `correction_trial` is hard-coded `"NA"` (line 1242); the
`StimulusCondition` column (position 7) and the `ExpCondition` column
(position 17) both copy `self.exp_condition`. -/
def write_data_row (s : TrialState) (x y outcome sessionTime : String)
    (trialTime subTimer : Int) (delayDur : Nat) (feedbackDur : String)
    (subject dateStr : String) : DataRow :=
  { sessionTime := sessionTime
    xcord := x
    ycord := y
    event := outcome
    correctionTrial := "NA"
    sampleStimulus := (s.sample_stimulus.splitOn ".").headD ""
    correctKey := s.correct_key
    stimulusCondition := s.exp_condition
    trialSubStage := s.trial_stage
    trialTime := trialTime
    trialSubStageTimer := subTimer
    trialNum := s.current_trial_counter
    nonCPTrialNum := s.non_CP_trials
    delayDuration := delayDur
    feedbackDuration := feedbackDur
    sampleFR := s.trial_FR
    subject := subject
    expCondition := s.exp_condition
    trainingPhase := s.training_phase
    stimulusSetNum := s.stimulus_set_num
    date := dateStr }

/-- `write_comp_data(SessionEnded)` (lines 1279-1296): at session end it
first logs a `"SessionEnds"` row, then writes the entire accumulated frame to
disk.  Returns the updated state and the rows written. -/
def write_comp_data (s : TrialState) (sessionEnded : Bool) :
    TrialState × List String :=
  let s := if sessionEnded then write_data s "SessionEnds" else s
  (s, s.log)

/-! ## Derived notions used by the theorems -/

/-- A press on a key that is not active in the current substage, exactly as
`key_press` classifies it: the key shows `"black"`, or (outside autoshaping,
and not the white ready signal) it is the sample key outside the sample-loop
stage, or a comparison key outside the choice stage. -/
def nonActivePress (s : TrialState) (k : KeyTag) : Prop :=
  s.terminal = none ∧
  (s.current_dict.get k = "black" ∨
    (s.training_phase ≠ 2 ∧ s.current_dict.get k ≠ "black" ∧
      s.current_dict.get k ≠ "white" ∧
      ((k = .sample_key ∧ s.trial_stage ≠ 1) ∨
        (k ≠ .sample_key ∧ s.trial_stage ≠ 3))))

instance (s : TrialState) (k : KeyTag) : Decidable (nonActivePress s k) := by
  unfold nonActivePress; infer_instance

/-- The log label `key_press` writes for a non-active press. -/
def nonActiveLabel (s : TrialState) (k : KeyTag) : String :=
  if s.current_dict.get k = "black" then nonActivePeckLabel k
  else if k = .sample_key then "nonactive_sample_key_press"
  else nonActivePeckLabel k

/-- State invariant for a DMTO trial (training phase 1): the key dictionary
matches the current substage (for substage 4 only the facts needed: no key
reads `"white"`), a timer is pending exactly in the substage that scheduled
it, and the stimulus names that can reach the sample key in the feedback
substage are not the ready-signal color. -/
def Inv (s : TrialState) : Prop :=
  s.training_phase = 1 ∧
  s.feedback_stimulus ≠ "white" ∧
  s.control_correct_feedback ≠ "white" ∧
  s.control_incorrect_feedback ≠ "white" ∧
  s.pending_auto = false ∧
  (s.terminal = none →
    ((s.trial_stage = 0 ∧ s.current_dict = ⟨"black", "black", "white"⟩ ∧
        s.pending_delay = false ∧ s.pending_feedback = none) ∨
      (s.trial_stage = 1 ∧ s.current_dict = ⟨"black", "black", s.sample_stimulus⟩ ∧
        s.pending_delay = false ∧ s.pending_feedback = none) ∨
      (s.trial_stage = 2 ∧ s.current_dict = ⟨"black", "black", "black"⟩ ∧
        s.pending_delay = true ∧ s.pending_feedback = none) ∨
      (s.trial_stage = 3 ∧
        s.current_dict = ⟨left_comp_color, right_comp_color, "black"⟩ ∧
        s.pending_delay = false ∧ s.pending_feedback = none) ∨
      (s.trial_stage = 4 ∧ s.current_dict.left_comparison_key ≠ "white" ∧
        s.current_dict.right_comparison_key ≠ "white" ∧
        s.current_dict.sample_key ≠ "white" ∧
        s.pending_delay = false ∧ s.pending_feedback.isSome = true)))

/-- Additional invariant for the outcome-deferred stimulus sets (16/17,
control condition): the feedback stimulus stays the `"TBD"` placeholder
until a choice fixes it to the reserved target of the realized outcome. -/
def FbInv (s : TrialState) : Prop :=
  (s.terminal = none → s.trial_stage ≤ 3 → s.feedback_stimulus = "TBD") ∧
  (s.pending_feedback = some true →
    s.feedback_stimulus = s.control_correct_feedback) ∧
  (s.pending_feedback = some false →
    s.feedback_stimulus = s.control_incorrect_feedback) ∧
  (s.terminal = some true →
    s.feedback_stimulus = s.control_correct_feedback) ∧
  (s.terminal = some false →
    s.feedback_stimulus = s.control_incorrect_feedback)

/-- The substages remaining from a given substage down to a terminal
outcome `t`. -/
def restPath : Phase → Phase → List Phase
  | .ready, t => [.ready, .sample, .delay, .choice, .feedback, t]
  | .sample, t => [.sample, .delay, .choice, .feedback, t]
  | .delay, t => [.delay, .choice, .feedback, t]
  | .choice, t => [.choice, .feedback, t]
  | .feedback, t => [.feedback, t]
  | .reinforced, t => [t]
  | .timedout, t => [t]

/-- The substage transitions a single event can cause in a DMTO trial:
either the substage is unchanged, or it advances to its direct successor. -/
def phaseStep (p q : Phase) : Prop :=
  p = q ∨ (p = .ready ∧ q = .sample) ∨ (p = .sample ∧ q = .delay) ∨
    (p = .delay ∧ q = .choice) ∨ (p = .choice ∧ q = .feedback) ∨
    (p = .feedback ∧ (q = .reinforced ∨ q = .timedout))

/-- Everything one event step preserves or establishes in a DMTO trial: the
invariant, the one-substage-at-a-time transition shape, the constancy of the
configuration fields, and (for the outcome-deferred stimulus sets in the
control condition) the deferred-feedback invariant. -/
def StepConcl (s s' : TrialState) : Prop :=
  Inv s' ∧ phaseStep s.phase s'.phase ∧
  s'.stimulus_set_num = s.stimulus_set_num ∧
  s'.exp_condition = s.exp_condition ∧
  s'.control_correct_feedback = s.control_correct_feedback ∧
  s'.control_incorrect_feedback = s.control_incorrect_feedback ∧
  (s.stimulus_set_num ∈ ([16, 17] : List Nat) → s.exp_condition = "C" →
    FbInv s → FbInv s')

/-! ## Helper lemmas on the pass-construction loop -/

/-- Whatever the fuel, the loop result is the accumulator followed by some
number of full sweeps of the eligible-name list. -/
theorem set_of_trials_loop_shape (names : List String) (bound : Nat) :
    ∀ (fuel : Nat) (acc : List String), ∃ j,
      set_of_trials_loop fuel names bound acc =
        acc ++ (List.replicate j names).flatten := by
  intro fuel
  induction fuel with
  | zero => intro acc; exact ⟨0, by simp [set_of_trials_loop]⟩
  | succ n ih =>
    intro acc
    by_cases h : acc.length < bound
    · obtain ⟨j, hj⟩ := ih (acc ++ names)
      refine ⟨j + 1, ?_⟩
      simp [set_of_trials_loop, h, hj, List.replicate_succ]
    · exact ⟨0, by simp [set_of_trials_loop, h]⟩

/-- Counting occurrences in `j` concatenated sweeps. -/
theorem count_join_replicate (a : String) (names : List String) :
    ∀ j : Nat, ((List.replicate j names).flatten).count a = j * names.count a := by
  intro j
  induction j with
  | zero => simp
  | succ n ih =>
    simp [List.replicate_succ, ih, Nat.succ_mul]
    omega

/-! ## Helper lemmas on the ITI condition-assignment fold -/

/-- If no row matches the sample name, the fold keeps its accumulator. -/
theorem iti_assign_condition_no_match (sample : String) :
    ∀ (rows : List StimFullRow) (cond0 : String),
      (∀ x ∈ rows, x.Name ≠ sample) →
      iti_assign_condition rows sample cond0 = cond0 := by
  intro rows
  induction rows with
  | nil => intro cond0 _; rfl
  | cons r rs ih =>
    intro cond0 hnone
    have hr : r.Name ≠ sample := hnone r (by simp)
    have : iti_assign_condition (r :: rs) sample cond0 =
        iti_assign_condition rs sample cond0 := by
      simp [iti_assign_condition, hr]
    rw [this]
    exact ih cond0 (fun x hx => hnone x (by simp [hx]))

/-- If some row matches the sample name, the fold result is the group prefix
of a matching row. -/
theorem iti_assign_condition_match (sample : String) :
    ∀ (rows : List StimFullRow) (cond0 : String),
      (∃ r ∈ rows, r.Name = sample) →
      ∃ r ∈ rows, r.Name = sample ∧
        iti_assign_condition rows sample cond0 = r.Group.take 1 := by
  intro rows
  induction rows with
  | nil => simp
  | cons r rs ih =>
    intro cond0 hex
    have hstep : iti_assign_condition (r :: rs) sample cond0 =
        iti_assign_condition rs sample
          (if r.Name = sample then r.Group.take 1 else cond0) := by
      simp [iti_assign_condition]
    by_cases hrs : ∃ x ∈ rs, x.Name = sample
    · obtain ⟨x, hx, hxn, hxe⟩ := ih _ hrs
      exact ⟨x, by simp [hx], hxn, by rw [hstep]; exact hxe⟩
    · have hnone : ∀ x ∈ rs, x.Name ≠ sample := by
        intro x hx hxn; exact hrs ⟨x, hx, hxn⟩
      have hr : r.Name = sample := by
        rcases hex with ⟨y, hy, hyn⟩
        rcases List.mem_cons.mp hy with h | h
        · rw [← h]; exact hyn
        · exact absurd hyn (hnone y h)
      refine ⟨r, by simp, hr, ?_⟩
      rw [hstep, if_pos hr]
      exact iti_assign_condition_no_match sample rs _ hnone


/-! ## One-step preservation: the master case analysis -/


theorem concl_refl (s : TrialState) (h : Inv s) : StepConcl s s :=
  ⟨h, Or.inl rfl, rfl, rfl, rfl, rfl, fun _ _ hf => hf⟩

theorem concl_of_log (s : TrialState) (lbl : String) (h : Inv s) :
    StepConcl s (write_data s lbl) := by
  obtain ⟨hph, hfb, hccf, hcif, hauto, hstage⟩ := h
  refine ⟨⟨hph, hfb, hccf, hcif, hauto, ?_⟩, Or.inl ?_, rfl, rfl, rfl, rfl, ?_⟩
  · intro h0
    simp only [write_data] at h0
    rcases hstage h0 with h | h | h | h | h <;> simp [write_data, h]
  · simp [TrialState.phase, write_data]
  · intro _ _ hf
    simpa [FbInv, write_data] using hf

theorem concl_ready_press (s : TrialState) (h : Inv s) (ht : s.terminal = none)
    (hstage : s.trial_stage = 0 ∨ s.trial_stage = 1)
    (hpd : s.pending_delay = false) (hpf : s.pending_feedback = none) :
    StepConcl s { s with
      trial_FR := s.sample_key_FR
      trial_stage := 1
      current_dict := ⟨"black", "black", s.sample_stimulus⟩
      log := s.log ++ ["ready_signal_press"] } := by
  obtain ⟨hph, hfb, hccf, hcif, hauto, _⟩ := h
  refine ⟨⟨hph, hfb, hccf, hcif, hauto,
    fun _ => Or.inr (Or.inl ⟨rfl, rfl, hpd, hpf⟩)⟩, ?_, rfl, rfl, rfl, rfl, ?_⟩
  · rcases hstage with h0 | h1
    · exact Or.inr (Or.inl ⟨by simp [TrialState.phase, ht, h0],
        by simp [TrialState.phase, ht]⟩)
    · exact Or.inl (by simp [TrialState.phase, ht, h1])
  · intro _ _ hf
    obtain ⟨hf1, _, _, _, _⟩ := hf
    refine ⟨fun _ _ => hf1 ht ?_, by simp [hpf], by simp [hpf],
      by simp [ht], by simp [ht]⟩
    rcases hstage with h0 | h1 <;> omega

theorem concl_sample_decrement (s : TrialState) (h : Inv s) (ht : s.terminal = none)
    (h1 : s.trial_stage = 1) (hpd : s.pending_delay = false)
    (hpf : s.pending_feedback = none) :
    StepConcl s { s with
      trial_FR := s.trial_FR - 1
      trial_stage := 1
      current_dict := ⟨"black", "black", s.sample_stimulus⟩
      log := s.log ++ ["sample_key_press"] } := by
  obtain ⟨hph, hfb, hccf, hcif, hauto, _⟩ := h
  refine ⟨⟨hph, hfb, hccf, hcif, hauto,
    fun _ => Or.inr (Or.inl ⟨rfl, rfl, hpd, hpf⟩)⟩,
    Or.inl (by simp [TrialState.phase, ht, h1]), rfl, rfl, rfl, rfl, ?_⟩
  intro _ _ hf
  obtain ⟨hf1, _, _, _, _⟩ := hf
  exact ⟨fun _ _ => hf1 ht (by omega), by simp [hpf], by simp [hpf],
    by simp [ht], by simp [ht]⟩

theorem concl_sample_complete (s : TrialState) (h : Inv s) (ht : s.terminal = none)
    (h1 : s.trial_stage = 1) (hpf : s.pending_feedback = none) :
    StepConcl s { s with
      trial_stage := 2
      current_dict := ⟨"black", "black", "black"⟩
      pending_delay := true
      log := s.log ++ ["sample_key_press"] } := by
  obtain ⟨hph, hfb, hccf, hcif, hauto, _⟩ := h
  refine ⟨⟨hph, hfb, hccf, hcif, hauto,
    fun _ => Or.inr (Or.inr (Or.inl ⟨rfl, rfl, rfl, hpf⟩))⟩,
    Or.inr (Or.inr (Or.inl ⟨by simp [TrialState.phase, ht, h1],
      by simp [TrialState.phase, ht]⟩)), rfl, rfl, rfl, rfl, ?_⟩
  intro _ _ hf
  obtain ⟨hf1, _, _, _, _⟩ := hf
  exact ⟨fun _ _ => hf1 ht (by omega), by simp [hpf], by simp [hpf],
    by simp [ht], by simp [ht]⟩

theorem concl_delay_fire (s : TrialState) (h : Inv s) (ht : s.terminal = none)
    (h2 : s.trial_stage = 2) (hpf : s.pending_feedback = none) :
    StepConcl s { s with
      trial_stage := 3
      current_dict := ⟨left_comp_color, right_comp_color, "black"⟩
      pending_delay := false } := by
  obtain ⟨hph, hfb, hccf, hcif, hauto, _⟩ := h
  refine ⟨⟨hph, hfb, hccf, hcif, hauto,
    fun _ => Or.inr (Or.inr (Or.inr (Or.inl ⟨rfl, rfl, rfl, hpf⟩)))⟩,
    Or.inr (Or.inr (Or.inr (Or.inl ⟨by simp [TrialState.phase, ht, h2],
      by simp [TrialState.phase, ht]⟩))), rfl, rfl, rfl, rfl, ?_⟩
  intro _ _ hf
  obtain ⟨hf1, _, _, _, _⟩ := hf
  exact ⟨fun _ _ => hf1 ht (by omega), by simp [hpf], by simp [hpf],
    by simp [ht], by simp [ht]⟩

theorem concl_choice (s : TrialState) (b : Bool) (lbl fb' : String) (d' : KeyDict)
    (h : Inv s) (ht : s.terminal = none) (h3 : s.trial_stage = 3)
    (hdl : d'.left_comparison_key ≠ "white")
    (hdr : d'.right_comparison_key ≠ "white")
    (hds : d'.sample_key ≠ "white")
    (hpd : s.pending_delay = false)
    (hfb' : fb' ≠ "white")
    (hfb16 : s.stimulus_set_num ∈ ([16, 17] : List Nat) → s.exp_condition = "C" →
      fb' = (if b then s.control_correct_feedback else s.control_incorrect_feedback)) :
    StepConcl s { s with
      trial_stage := 4
      feedback_stimulus := fb'
      current_dict := d'
      pending_feedback := some b
      log := s.log ++ [lbl] } := by
  obtain ⟨hph, hfb, hccf, hcif, hauto, _⟩ := h
  refine ⟨⟨hph, hfb', hccf, hcif, hauto,
    fun _ => Or.inr (Or.inr (Or.inr (Or.inr ⟨rfl, hdl, hdr, hds, hpd, rfl⟩)))⟩,
    Or.inr (Or.inr (Or.inr (Or.inr (Or.inl ⟨by simp [TrialState.phase, ht, h3],
      by simp [TrialState.phase, ht]⟩)))), rfl, rfl, rfl, rfl, ?_⟩
  intro hset hcond _
  refine ⟨fun _ hle => by simp at hle, ?_, ?_, by simp [ht], by simp [ht]⟩
  · intro hb
    have hbt : b = true := by simpa using hb
    subst hbt
    simpa using hfb16 hset hcond
  · intro hb
    have hbf : b = false := by simpa using hb
    subst hbf
    simpa using hfb16 hset hcond

theorem concl_feedback_fire (s : TrialState) (b : Bool) (h : Inv s)
    (ht : s.terminal = none) (h4 : s.trial_stage = 4)
    (hpfb : s.pending_feedback = some b) :
    StepConcl s { s with
      pending_feedback := none
      non_CP_trials := s.non_CP_trials + 1
      terminal := some b
      log := s.log ++ [if b then "reinforcer_provided" else "time_out"] } := by
  obtain ⟨hph, hfb, hccf, hcif, hauto, _⟩ := h
  refine ⟨⟨hph, hfb, hccf, hcif, hauto, fun hc => by simp at hc⟩, ?_,
    rfl, rfl, rfl, rfl, ?_⟩
  · refine Or.inr (Or.inr (Or.inr (Or.inr (Or.inr
      ⟨by simp [TrialState.phase, ht, h4], ?_⟩))))
    cases b
    · exact Or.inr (by simp [TrialState.phase])
    · exact Or.inl (by simp [TrialState.phase])
  · intro _ _ hf
    obtain ⟨_, hf2, hf3, _, _⟩ := hf
    refine ⟨fun hc => by simp at hc, by simp, by simp, ?_, ?_⟩
    · intro hb
      have hbt : b = true := by simpa using hb
      exact hf2 (hbt ▸ hpfb)
    · intro hb
      have hbf : b = false := by simpa using hb
      exact hf3 (hbf ▸ hpfb)



theorem concl_choice_press (s : TrialState) (b : Bool) (lbl : String)
    (h : Inv s) (ht : s.terminal = none) (h3 : s.trial_stage = 3)
    (hd : s.current_dict = ⟨left_comp_color, right_comp_color, "black"⟩)
    (hpd : s.pending_delay = false) :
    StepConcl s (feedback_stage
      (if s.stimulus_set_num ∈ ([16, 17] : List Nat) ∧ s.exp_condition = "C" then
        { write_data s lbl with
          feedback_stimulus :=
            if b then s.control_correct_feedback else s.control_incorrect_feedback }
      else write_data s lbl) b) := by
  have hph := h.1
  have hfb := h.2.1
  have hccf := h.2.2.1
  have hcif := h.2.2.2.1
  have hfbw : (if b then s.control_correct_feedback
      else s.control_incorrect_feedback) ≠ "white" := by
    cases b <;> simp [hccf, hcif]
  by_cases h16 : s.stimulus_set_num ∈ ([16, 17] : List Nat) ∧ s.exp_condition = "C"
  · obtain ⟨hs1617, hcond⟩ := h16
    have hm : s.stimulus_set_num = 16 ∨ s.stimulus_set_num = 17 := by
      simpa using hs1617
    have hs3 : s.stimulus_set_num ≠ 3 := by rcases hm with hm | hm <;> omega
    have hs12 : s.stimulus_set_num ≠ 12 := by rcases hm with hm | hm <;> omega
    have hs11 : s.stimulus_set_num ≠ 11 := by rcases hm with hm | hm <;> omega
    have heq : feedback_stage
        (if s.stimulus_set_num ∈ ([16, 17] : List Nat) ∧ s.exp_condition = "C" then
          { write_data s lbl with
            feedback_stimulus :=
              if b then s.control_correct_feedback else s.control_incorrect_feedback }
        else write_data s lbl) b
        = { s with
            trial_stage := 4
            feedback_stimulus :=
              if b then s.control_correct_feedback else s.control_incorrect_feedback
            current_dict := ⟨"black", "black",
              if b then s.control_correct_feedback else s.control_incorrect_feedback⟩
            pending_feedback := some b
            log := s.log ++ [lbl] } := by
      simp [feedback_stage, build_keys, TrialState.calcDict,
        calculate_trial_key_stimuli, hph, hs1617, hcond, hs3, hs12, hs11,
        write_data]
    rw [heq]
    exact concl_choice s b lbl _ _ h ht h3 (by simp) (by simp)
      hfbw hpd hfbw (fun _ _ => rfl)
  · by_cases h312 : s.stimulus_set_num ∈ ([3, 12] : List Nat) ∧ s.exp_condition = "C"
    · obtain ⟨hm312, hcond⟩ := h312
      have hm : s.stimulus_set_num = 3 ∨ s.stimulus_set_num = 12 := by
        simpa using hm312
      have hne16 : s.stimulus_set_num ≠ 16 := by rcases hm with hm | hm <;> omega
      have hne17 : s.stimulus_set_num ≠ 17 := by rcases hm with hm | hm <;> omega
      have heq : feedback_stage
          (if s.stimulus_set_num ∈ ([16, 17] : List Nat) ∧ s.exp_condition = "C" then
            { write_data s lbl with
              feedback_stimulus :=
                if b then s.control_correct_feedback else s.control_incorrect_feedback }
          else write_data s lbl) b
          = { s with
              trial_stage := 4
              current_dict := ⟨left_comp_color, right_comp_color, "black"⟩
              pending_feedback := some b
              log := s.log ++ [lbl] } := by
        simp [feedback_stage, hm312, hcond, hne16, hne17, write_data, hd]
      rw [heq]
      exact concl_choice s b lbl s.feedback_stimulus _ h ht h3
        (by simp [left_comp_color]) (by simp [right_comp_color]) (by simp)
        hpd hfb (fun hset hcond' => absurd ⟨hset, hcond'⟩ h16)
    · by_cases h11 : s.stimulus_set_num = 11 ∧ s.exp_condition = "C"
      · have heq : feedback_stage
            (if s.stimulus_set_num ∈ ([16, 17] : List Nat) ∧ s.exp_condition = "C" then
              { write_data s lbl with
                feedback_stimulus :=
                  if b then s.control_correct_feedback else s.control_incorrect_feedback }
            else write_data s lbl) b
            = { s with
                trial_stage := 4
                current_dict := ⟨left_comp_color, right_comp_color, "black"⟩
                pending_feedback := some b
                log := s.log ++ [lbl] } := by
          simp [feedback_stage, build_keys, h11, write_data, hd]
        rw [heq]
        exact concl_choice s b lbl s.feedback_stimulus _ h ht h3
          (by simp [left_comp_color]) (by simp [right_comp_color]) (by simp)
          hpd hfb (fun hset hcond' => absurd ⟨hset, hcond'⟩ h16)
      · by_cases hE1 : s.exp_condition = "E" ∧ s.stimulus_set_num = 1
        · have heq : feedback_stage
              (if s.stimulus_set_num ∈ ([16, 17] : List Nat) ∧ s.exp_condition = "C" then
                { write_data s lbl with
                  feedback_stimulus :=
                    if b then s.control_correct_feedback else s.control_incorrect_feedback }
              else write_data s lbl) b
              = { s with
                  trial_stage := 4
                  current_dict := ⟨"black", "black", control_feedback_color⟩
                  pending_feedback := some b
                  log := s.log ++ [lbl] } := by
            simp [feedback_stage, build_keys, TrialState.calcDict,
              calculate_trial_key_stimuli, hph, hE1, write_data]
          rw [heq]
          exact concl_choice s b lbl s.feedback_stimulus _ h ht h3 (by simp)
            (by simp) (by simp [control_feedback_color]) hpd hfb
            (fun hset hcond' => absurd ⟨hset, hcond'⟩ h16)
        · have h16n : ¬((s.stimulus_set_num = 16 ∨ s.stimulus_set_num = 17) ∧
              s.exp_condition = "C") := by simpa using h16
          have h312n : ¬((s.stimulus_set_num = 3 ∨ s.stimulus_set_num = 12) ∧
              s.exp_condition = "C") := by simpa using h312
          have heq : feedback_stage
              (if s.stimulus_set_num ∈ ([16, 17] : List Nat) ∧ s.exp_condition = "C" then
                { write_data s lbl with
                  feedback_stimulus :=
                    if b then s.control_correct_feedback else s.control_incorrect_feedback }
              else write_data s lbl) b
              = { s with
                  trial_stage := 4
                  current_dict := ⟨"black", "black", s.feedback_stimulus⟩
                  pending_feedback := some b
                  log := s.log ++ [lbl] } := by
            simp [h16n, feedback_stage, h312n, build_keys, h11, TrialState.calcDict,
              calculate_trial_key_stimuli, hph, hE1, write_data]
          rw [heq]
          exact concl_choice s b lbl s.feedback_stimulus _ h ht h3 (by simp)
            (by simp) hfb hpd hfb
            (fun hset hcond' => absurd ⟨hset, hcond'⟩ h16)



theorem step_concl (s : TrialState) (e : Event) (h : Inv s) :
    StepConcl s (step s e) := by
  have hph := h.1
  have hfb := h.2.1
  have hccf := h.2.2.1
  have hcif := h.2.2.2.1
  have hauto := h.2.2.2.2.1
  have hstage := h.2.2.2.2.2
  cases ht : s.terminal with
  | some b =>
    have hs : step s e = s := by simp [step, ht]
    rw [hs]; exact concl_refl s h
  | none =>
    have hph2 : s.training_phase ≠ 2 := by omega
    rcases hstage ht with ⟨h0, hd, hpd, hpf⟩ | ⟨h0, hd, hpd, hpf⟩ |
      ⟨h0, hd, hpd, hpf⟩ | ⟨h0, hd, hpd, hpf⟩ | ⟨h0, hdl, hdr, hds, hpd, hpf⟩
    -- stage 0: ready signal
    · cases e with
      | key_press k =>
        cases k with
        | left_comparison_key =>
          have hs : step s (.key_press .left_comparison_key)
              = write_data s (nonActivePeckLabel .left_comparison_key) := by
            simp [step, ht, key_press, hd, KeyDict.get]
          rw [hs]; exact concl_of_log s _ h
        | right_comparison_key =>
          have hs : step s (.key_press .right_comparison_key)
              = write_data s (nonActivePeckLabel .right_comparison_key) := by
            simp [step, ht, key_press, hd, KeyDict.get]
          rw [hs]; exact concl_of_log s _ h
        | sample_key =>
          have hs : step s (.key_press .sample_key)
              = { s with
                  trial_FR := s.sample_key_FR
                  trial_stage := 1
                  current_dict := ⟨"black", "black", s.sample_stimulus⟩
                  log := s.log ++ ["ready_signal_press"] } := by
            simp [step, ht, key_press, hd, KeyDict.get, hph2, hph,
              ready_signal_press, sample_key_loop, write_data, build_keys,
              TrialState.calcDict, calculate_trial_key_stimuli]
          rw [hs]; exact concl_ready_press s h ht (Or.inl h0) hpd hpf
      | delay_timer =>
        have hs : step s .delay_timer = s := by simp [step, ht, hpd]
        rw [hs]; exact concl_refl s h
      | feedback_timer =>
        have hs : step s .feedback_timer = s := by simp [step, ht, hpf]
        rw [hs]; exact concl_refl s h
      | auto_timer =>
        have hs : step s .auto_timer = s := by simp [step, ht, hauto]
        rw [hs]; exact concl_refl s h
    -- stage 1: sample-key loop
    · cases e with
      | key_press k =>
        cases k with
        | left_comparison_key =>
          have hs : step s (.key_press .left_comparison_key)
              = write_data s (nonActivePeckLabel .left_comparison_key) := by
            simp [step, ht, key_press, hd, KeyDict.get]
          rw [hs]; exact concl_of_log s _ h
        | right_comparison_key =>
          have hs : step s (.key_press .right_comparison_key)
              = write_data s (nonActivePeckLabel .right_comparison_key) := by
            simp [step, ht, key_press, hd, KeyDict.get]
          rw [hs]; exact concl_of_log s _ h
        | sample_key =>
          by_cases hb : s.sample_stimulus = "black"
          · have hs : step s (.key_press .sample_key)
                = write_data s (nonActivePeckLabel .sample_key) := by
              simp [step, ht, key_press, hd, KeyDict.get, hb]
            rw [hs]; exact concl_of_log s _ h
          · by_cases hw : s.sample_stimulus = "white"
            · have hs : step s (.key_press .sample_key)
                  = { s with
                      trial_FR := s.sample_key_FR
                      trial_stage := 1
                      current_dict := ⟨"black", "black", s.sample_stimulus⟩
                      log := s.log ++ ["ready_signal_press"] } := by
                simp [step, ht, key_press, hd, KeyDict.get, hb, hw, hph2, hph,
                  ready_signal_press, sample_key_loop, write_data, build_keys,
                  TrialState.calcDict, calculate_trial_key_stimuli]
              rw [hs]; exact concl_ready_press s h ht (Or.inr h0) hpd hpf
            · by_cases hfr : s.trial_FR ≤ 1
              · have hs : step s (.key_press .sample_key)
                    = { s with
                        trial_stage := 2
                        current_dict := ⟨"black", "black", "black"⟩
                        pending_delay := true
                        log := s.log ++ ["sample_key_press"] } := by
                  simp [step, ht, key_press, hd, KeyDict.get, hb, hw, hph2,
                    sample_key_press, h0, hfr, hph, delay_stage, build_keys,
                    write_data, TrialState.calcDict, calculate_trial_key_stimuli]
                rw [hs]; exact concl_sample_complete s h ht h0 hpf
              · have hs : step s (.key_press .sample_key)
                    = { s with
                        trial_FR := s.trial_FR - 1
                        trial_stage := 1
                        current_dict := ⟨"black", "black", s.sample_stimulus⟩
                        log := s.log ++ ["sample_key_press"] } := by
                  simp [step, ht, key_press, hd, KeyDict.get, hb, hw, hph2,
                    sample_key_press, h0, hfr, sample_key_loop, build_keys,
                    write_data, TrialState.calcDict, calculate_trial_key_stimuli]
                rw [hs]; exact concl_sample_decrement s h ht h0 hpd hpf
      | delay_timer =>
        have hs : step s .delay_timer = s := by simp [step, ht, hpd]
        rw [hs]; exact concl_refl s h
      | feedback_timer =>
        have hs : step s .feedback_timer = s := by simp [step, ht, hpf]
        rw [hs]; exact concl_refl s h
      | auto_timer =>
        have hs : step s .auto_timer = s := by simp [step, ht, hauto]
        rw [hs]; exact concl_refl s h
    -- stage 2: delay
    · cases e with
      | key_press k =>
        cases k with
        | left_comparison_key =>
          have hs : step s (.key_press .left_comparison_key)
              = write_data s (nonActivePeckLabel .left_comparison_key) := by
            simp [step, ht, key_press, hd, KeyDict.get]
          rw [hs]; exact concl_of_log s _ h
        | right_comparison_key =>
          have hs : step s (.key_press .right_comparison_key)
              = write_data s (nonActivePeckLabel .right_comparison_key) := by
            simp [step, ht, key_press, hd, KeyDict.get]
          rw [hs]; exact concl_of_log s _ h
        | sample_key =>
          have hs : step s (.key_press .sample_key)
              = write_data s (nonActivePeckLabel .sample_key) := by
            simp [step, ht, key_press, hd, KeyDict.get]
          rw [hs]; exact concl_of_log s _ h
      | delay_timer =>
        have hs : step s .delay_timer
            = { s with
                trial_stage := 3
                current_dict := ⟨left_comp_color, right_comp_color, "black"⟩
                pending_delay := false } := by
          simp [step, ht, hpd, matching_stage, build_keys, hph,
            TrialState.calcDict, calculate_trial_key_stimuli]
        rw [hs]; exact concl_delay_fire s h ht h0 hpf
      | feedback_timer =>
        have hs : step s .feedback_timer = s := by simp [step, ht, hpf]
        rw [hs]; exact concl_refl s h
      | auto_timer =>
        have hs : step s .auto_timer = s := by simp [step, ht, hauto]
        rw [hs]; exact concl_refl s h
    -- stage 3: choice
    · cases e with
      | key_press k =>
        cases k with
        | left_comparison_key =>
          by_cases hck : s.correct_key = "L"
          · have hs : step s (.key_press .left_comparison_key)
                = feedback_stage
                  (if s.stimulus_set_num ∈ ([16, 17] : List Nat) ∧
                      s.exp_condition = "C" then
                    { write_data s "correct_choice" with
                      feedback_stimulus := s.control_correct_feedback }
                  else write_data s "correct_choice") true := by
              simp [step, ht, key_press, hd, KeyDict.get, hph2, hph, h0, hck,
                left_comp_color, right_comp_color, write_data, apply_ite]
            rw [hs]
            exact concl_choice_press s true "correct_choice" h ht h0 hd hpd
          · have hs : step s (.key_press .left_comparison_key)
                = feedback_stage
                  (if s.stimulus_set_num ∈ ([16, 17] : List Nat) ∧
                      s.exp_condition = "C" then
                    { write_data s "incorrect_choice" with
                      feedback_stimulus := s.control_incorrect_feedback }
                  else write_data s "incorrect_choice") false := by
              simp [step, ht, key_press, hd, KeyDict.get, hph2, hph, h0, hck,
                left_comp_color, right_comp_color, write_data, apply_ite]
            rw [hs]
            exact concl_choice_press s false "incorrect_choice" h ht h0 hd hpd
        | right_comparison_key =>
          by_cases hck : s.correct_key = "R"
          · have hs : step s (.key_press .right_comparison_key)
                = feedback_stage
                  (if s.stimulus_set_num ∈ ([16, 17] : List Nat) ∧
                      s.exp_condition = "C" then
                    { write_data s "correct_choice" with
                      feedback_stimulus := s.control_correct_feedback }
                  else write_data s "correct_choice") true := by
              simp [step, ht, key_press, hd, KeyDict.get, hph2, hph, h0, hck,
                left_comp_color, right_comp_color, write_data, apply_ite]
            rw [hs]
            exact concl_choice_press s true "correct_choice" h ht h0 hd hpd
          · have hs : step s (.key_press .right_comparison_key)
                = feedback_stage
                  (if s.stimulus_set_num ∈ ([16, 17] : List Nat) ∧
                      s.exp_condition = "C" then
                    { write_data s "incorrect_choice" with
                      feedback_stimulus := s.control_incorrect_feedback }
                  else write_data s "incorrect_choice") false := by
              simp [step, ht, key_press, hd, KeyDict.get, hph2, hph, h0, hck,
                left_comp_color, right_comp_color, write_data, apply_ite]
            rw [hs]
            exact concl_choice_press s false "incorrect_choice" h ht h0 hd hpd
        | sample_key =>
          have hs : step s (.key_press .sample_key)
              = write_data s (nonActivePeckLabel .sample_key) := by
            simp [step, ht, key_press, hd, KeyDict.get]
          rw [hs]; exact concl_of_log s _ h
      | delay_timer =>
        have hs : step s .delay_timer = s := by simp [step, ht, hpd]
        rw [hs]; exact concl_refl s h
      | feedback_timer =>
        have hs : step s .feedback_timer = s := by simp [step, ht, hpf]
        rw [hs]; exact concl_refl s h
      | auto_timer =>
        have hs : step s .auto_timer = s := by simp [step, ht, hauto]
        rw [hs]; exact concl_refl s h
    -- stage 4: feedback
    · cases e with
      | key_press k =>
        cases k with
        | left_comparison_key =>
          by_cases hbl : s.current_dict.left_comparison_key = "black"
          · have hs : step s (.key_press .left_comparison_key)
                = write_data s (nonActivePeckLabel .left_comparison_key) := by
              simp [step, ht, key_press, KeyDict.get, hbl]
            rw [hs]; exact concl_of_log s _ h
          · have hs : step s (.key_press .left_comparison_key)
                = write_data s (nonActivePeckLabel .left_comparison_key) := by
              simp [step, ht, key_press, KeyDict.get, hbl, hdl, hph2, h0]
            rw [hs]; exact concl_of_log s _ h
        | right_comparison_key =>
          by_cases hbr : s.current_dict.right_comparison_key = "black"
          · have hs : step s (.key_press .right_comparison_key)
                = write_data s (nonActivePeckLabel .right_comparison_key) := by
              simp [step, ht, key_press, KeyDict.get, hbr]
            rw [hs]; exact concl_of_log s _ h
          · have hs : step s (.key_press .right_comparison_key)
                = write_data s (nonActivePeckLabel .right_comparison_key) := by
              simp [step, ht, key_press, KeyDict.get, hbr, hdr, hph2, h0]
            rw [hs]; exact concl_of_log s _ h
        | sample_key =>
          by_cases hbs : s.current_dict.sample_key = "black"
          · have hs : step s (.key_press .sample_key)
                = write_data s (nonActivePeckLabel .sample_key) := by
              simp [step, ht, key_press, KeyDict.get, hbs]
            rw [hs]; exact concl_of_log s _ h
          · have hs : step s (.key_press .sample_key)
                = write_data s "nonactive_sample_key_press" := by
              simp [step, ht, key_press, KeyDict.get, hbs, hds, hph2,
                sample_key_press, h0]
            rw [hs]; exact concl_of_log s _ h
      | delay_timer =>
        have hs : step s .delay_timer = s := by simp [step, ht, hpd]
        rw [hs]; exact concl_refl s h
      | feedback_timer =>
        obtain ⟨b, hb⟩ := Option.isSome_iff_exists.mp hpf
        cases b with
        | true =>
          have hs : step s .feedback_timer
              = { s with
                  pending_feedback := none
                  non_CP_trials := s.non_CP_trials + 1
                  terminal := some true
                  log := s.log ++ ["reinforcer_provided"] } := by
            simp [step, ht, hb, provide_food, write_data]
          rw [hs]; exact concl_feedback_fire s true h ht h0 hb
        | false =>
          have hs : step s .feedback_timer
              = { s with
                  pending_feedback := none
                  non_CP_trials := s.non_CP_trials + 1
                  terminal := some false
                  log := s.log ++ ["time_out"] } := by
            simp [step, ht, hb, time_out_func, write_data]
          rw [hs]; exact concl_feedback_fire s false h ht h0 hb
      | auto_timer =>
        have hs : step s .auto_timer = s := by simp [step, ht, hauto]
        rw [hs]; exact concl_refl s h



/-! ## Run-level lemmas -/

theorem terminal_run (evs : List Event) :
    ∀ s : TrialState, s.terminal.isSome → run s evs = s := by
  induction evs with
  | nil => intro s _; rfl
  | cons e rest ih =>
    intro s hs
    have hstep : step s e = s := by simp [step, hs]
    show run (step s e) rest = s
    rw [hstep]
    exact ih s hs

theorem run_inv (evs : List Event) : ∀ s, Inv s → Inv (run s evs) := by
  induction evs with
  | nil => intro s h; exact h
  | cons e rest ih =>
    intro s h
    exact ih _ (step_concl s e h).1

theorem run_inv16 (evs : List Event) : ∀ s, Inv s →
    s.stimulus_set_num ∈ ([16, 17] : List Nat) → s.exp_condition = "C" →
    FbInv s →
    FbInv (run s evs) ∧
    (run s evs).control_correct_feedback = s.control_correct_feedback ∧
    (run s evs).control_incorrect_feedback = s.control_incorrect_feedback := by
  induction evs with
  | nil => intro s _ _ _ hf; exact ⟨hf, rfl, rfl⟩
  | cons e rest ih =>
    intro s h hset hcond hf
    obtain ⟨hInv, _, hsetE, hcondE, hccfE, hcifE, hfbP⟩ := step_concl s e h
    have hrec := ih (step s e) hInv (by rw [hsetE]; exact hset)
      (by rw [hcondE]; exact hcond) (hfbP hset hcond hf)
    refine ⟨hrec.1, ?_, ?_⟩
    · show (run (step s e) rest).control_correct_feedback = _
      rw [hrec.2.1, hccfE]
    · show (run (step s e) rest).control_incorrect_feedback = _
      rw [hrec.2.2, hcifE]

theorem visited_run (evs : List Event) : ∀ s, Inv s →
    (run s evs).terminal.isSome →
    visitedFrom s evs = restPath s.phase (run s evs).phase := by
  induction evs with
  | nil =>
    intro s _ hterm
    show [s.phase] = restPath s.phase s.phase
    cases hts : s.terminal with
    | none => rw [show run s [] = s from rfl, hts] at hterm; cases hterm
    | some b => cases b <;> simp [TrialState.phase, hts, restPath]
  | cons e rest ih =>
    intro s h hterm
    have hsc := step_concl s e h
    have ihh := ih (step s e) hsc.1 hterm
    by_cases hph : (step s e).phase = s.phase
    · have hv : visitedFrom s (e :: rest) = visitedFrom (step s e) rest := by
        simp [visitedFrom, hph]
      rw [hv, ihh, hph]
      rfl
    · have hv : visitedFrom s (e :: rest)
          = s.phase :: visitedFrom (step s e) rest := by
        simp [visitedFrom, hph]
      rw [hv, ihh]
      rcases hsc.2.1 with heq | ⟨h1, h2⟩ | ⟨h1, h2⟩ | ⟨h1, h2⟩ | ⟨h1, h2⟩ | ⟨h1, h2⟩
      · exact absurd heq.symm hph
      · rw [h1, h2]; rfl
      · rw [h1, h2]; rfl
      · rw [h1, h2]; rfl
      · rw [h1, h2]; rfl
      · rcases h2 with h2 | h2 <;> rw [h1, h2] <;> rfl

theorem run_append (l1 l2 : List Event) :
    ∀ s, run s (l1 ++ l2) = run (run s l1) l2 := by
  induction l1 with
  | nil => intro s; rfl
  | cons e rest ih => intro s; exact ih (step s e)

/-- The explicit record a fresh DMTO trial starts in. -/
theorem initDMTO_explicit (setNum : Nat) (sample ck cond fb ccf cif : String)
    (n counter nonCP : Nat) :
    initDMTO setNum sample ck cond fb ccf cif n counter nonCP =
      { training_phase := 1
        stimulus_set_num := setNum
        trial_stage := 0
        trial_FR := 0
        sample_key_FR := n
        sample_stimulus := sample
        correct_key := ck
        exp_condition := cond
        feedback_stimulus := fb
        control_correct_feedback := ccf
        control_incorrect_feedback := cif
        illuminated_key := .sample_key
        current_trial_counter := counter
        non_CP_trials := nonCP
        as_sample_pick := "white"
        current_dict := ⟨"black", "black", "white"⟩
        pending_delay := false
        pending_feedback := none
        pending_auto := false
        terminal := none
        log := [] } := by
  simp [initDMTO, ready_signal_phase, build_keys, TrialState.calcDict,
    calculate_trial_key_stimuli]

theorem initDMTO_inv (setNum : Nat) (sample ck cond fb ccf cif : String)
    (n counter nonCP : Nat) (hfb : fb ≠ "white") (hccf : ccf ≠ "white")
    (hcif : cif ≠ "white") :
    Inv (initDMTO setNum sample ck cond fb ccf cif n counter nonCP) := by
  rw [initDMTO_explicit]
  exact ⟨rfl, hfb, hccf, hcif, rfl, fun _ => Or.inl ⟨rfl, rfl, rfl, rfl⟩⟩

theorem initDMTO_phase (setNum : Nat) (sample ck cond fb ccf cif : String)
    (n counter nonCP : Nat) :
    (initDMTO setNum sample ck cond fb ccf cif n counter nonCP).phase
      = .ready := by
  rw [initDMTO_explicit]
  rfl



/-! ## The sample-key fixed-ratio loop -/

/-- The state `sample_key_loop` produces, explicitly (any non-autoshaping
phase). -/
theorem sample_key_loop_explicit (s : TrialState) (m : Nat)
    (hph2 : s.training_phase ≠ 2) :
    sample_key_loop s m = { s with
      trial_FR := m
      trial_stage := 1
      current_dict := ⟨"black", "black", s.sample_stimulus⟩ } := by
  simp [sample_key_loop, build_keys, TrialState.calcDict,
    calculate_trial_key_stimuli, hph2]

/-- One valid sample press while more than one response remains: the
fixed-ratio count drops by one and the machine stays in the sample loop. -/
theorem sample_press_decrement_run (k : Nat) :
    ∀ (s : TrialState) (n : Nat), k < n →
      s.training_phase ≠ 2 → s.terminal = none →
      s.sample_stimulus ≠ "black" → s.sample_stimulus ≠ "white" →
      run (sample_key_loop s n) (List.replicate k (.key_press .sample_key))
        = sample_key_loop
            { s with log := s.log ++ List.replicate k "sample_key_press" }
            (n - k) := by
  induction k with
  | zero =>
    intro s n _ _ _ _ _
    show sample_key_loop s n = _
    congr 1
    · simp
  | succ k ih =>
    intro s n hk hph2 ht hb hw
    have hn1 : ¬ n ≤ 1 := by omega
    have hstep : step (sample_key_loop s n) (.key_press .sample_key)
        = sample_key_loop { s with log := s.log ++ ["sample_key_press"] }
            (n - 1) := by
      rw [sample_key_loop_explicit s n hph2,
        sample_key_loop_explicit _ (n - 1) (by simpa using hph2)]
      simp [step, ht, key_press, KeyDict.get, hb, hw, hph2, sample_key_press,
        hn1, sample_key_loop, build_keys, TrialState.calcDict,
        calculate_trial_key_stimuli, write_data]
    have hrepl : List.replicate (k + 1) (Event.key_press .sample_key)
        = .key_press .sample_key :: List.replicate k (.key_press .sample_key) := rfl
    rw [hrepl]
    show run (step (sample_key_loop s n) (.key_press .sample_key))
        (List.replicate k (.key_press .sample_key)) = _
    rw [hstep]
    have := ih { s with log := s.log ++ ["sample_key_press"] } (n - 1)
      (by omega) hph2 ht hb hw
    rw [this]
    have harith : n - 1 - k = n - (k + 1) := by omega
    have hlog : (s.log ++ ["sample_key_press"]) ++
        List.replicate k "sample_key_press"
        = s.log ++ List.replicate (k + 1) "sample_key_press" := by
      simp [List.replicate_succ]
    rw [harith]
    congr 1
    simp [List.replicate_succ]

/-- The final (ratio-completing) sample press: phase 1 advances to the delay
stage, phase 0 directly to the choice stage. -/
theorem sample_press_completes (s : TrialState)
    (hph : s.training_phase = 0 ∨ s.training_phase = 1)
    (ht : s.terminal = none)
    (hb : s.sample_stimulus ≠ "black") (hw : s.sample_stimulus ≠ "white") :
    (step (sample_key_loop s 1) (.key_press .sample_key)).trial_stage
      = (if s.training_phase = 1 then 2 else 3) := by
  have hph2 : s.training_phase ≠ 2 := by rcases hph with h | h <;> omega
  rw [sample_key_loop_explicit s 1 hph2]
  rcases hph with h0 | h1
  · have h01 : s.training_phase ≠ 1 := by omega
    simp [step, ht, key_press, KeyDict.get, hb, hw, hph2, sample_key_press,
      h0, h01, matching_stage, build_keys, TrialState.calcDict,
      calculate_trial_key_stimuli, write_data]
  · simp [step, ht, key_press, KeyDict.get, hb, hw, hph2, sample_key_press,
      h1, delay_stage, build_keys, TrialState.calcDict,
      calculate_trial_key_stimuli, write_data]



/-- Claim C3: for every DMTO trial run to completion, the substages visited
are exactly ReadySignal, SampleLoop, Delay, Choice, Feedback and then exactly
one of Reinforce or Timeout, with no substage skipped or repeated; and the
Feedback substage transitions on timer expiry to Reinforce when the carried
correctness flag is true and to Timeout otherwise. -/
theorem C3_dmto_substage_sequence (setNum n counter nonCP : Nat)
    (sample ck cond fb ccf cif : String)
    (hfb : fb ≠ "white") (hccf : ccf ≠ "white") (hcif : cif ≠ "white")
    (evs : List Event)
    (hterm : (run (initDMTO setNum sample ck cond fb ccf cif n counter nonCP)
      evs).terminal.isSome) :
    (visitedFrom (initDMTO setNum sample ck cond fb ccf cif n counter nonCP) evs
        = [.ready, .sample, .delay, .choice, .feedback,
            (run (initDMTO setNum sample ck cond fb ccf cif n counter nonCP)
              evs).phase]
      ∧ ((run (initDMTO setNum sample ck cond fb ccf cif n counter nonCP)
            evs).phase = .reinforced ∨
          (run (initDMTO setNum sample ck cond fb ccf cif n counter nonCP)
            evs).phase = .timedout))
    ∧ (∀ s : TrialState, ∀ b : Bool, s.terminal = none →
        s.pending_feedback = some b →
        (step s .feedback_timer).phase
          = (if b then Phase.reinforced else Phase.timedout)) := by
  constructor
  · have hInv := initDMTO_inv setNum sample ck cond fb ccf cif n counter nonCP
      hfb hccf hcif
    have hv := visited_run evs _ hInv hterm
    rw [initDMTO_phase] at hv
    constructor
    · rw [hv]
      rfl
    · cases hts : (run (initDMTO setNum sample ck cond fb ccf cif n counter
          nonCP) evs).terminal with
      | none => rw [hts] at hterm; cases hterm
      | some b => cases b <;> simp [TrialState.phase, hts]
  · intro s b ht hb
    cases b <;>
      simp [step, ht, hb, provide_food, time_out_func, write_data,
        TrialState.phase]

/-- Claim C3 witness: a concrete complete DMTO trial (stimulus set 1,
fixed ratio 1, correct left choice). -/
theorem C3_dmto_substage_sequence_witness :
    visitedFrom (initDMTO 1 "Anchor.bmp" "L" "E" "Anchor.bmp" "NA" "NA" 1 1 1)
        [.key_press .sample_key, .key_press .sample_key, .delay_timer,
          .key_press .left_comparison_key, .feedback_timer]
      = [.ready, .sample, .delay, .choice, .feedback,
          (run (initDMTO 1 "Anchor.bmp" "L" "E" "Anchor.bmp" "NA" "NA" 1 1 1)
            [.key_press .sample_key, .key_press .sample_key, .delay_timer,
              .key_press .left_comparison_key, .feedback_timer]).phase]
    ∧ ((run (initDMTO 1 "Anchor.bmp" "L" "E" "Anchor.bmp" "NA" "NA" 1 1 1)
          [.key_press .sample_key, .key_press .sample_key, .delay_timer,
            .key_press .left_comparison_key, .feedback_timer]).phase
            = .reinforced ∨
        (run (initDMTO 1 "Anchor.bmp" "L" "E" "Anchor.bmp" "NA" "NA" 1 1 1)
          [.key_press .sample_key, .key_press .sample_key, .delay_timer,
            .key_press .left_comparison_key, .feedback_timer]).phase
            = .timedout) :=
  (C3_dmto_substage_sequence 1 1 1 1 "Anchor.bmp" "L" "E" "Anchor.bmp" "NA"
    "NA" (by decide) (by decide) (by decide)
    [.key_press .sample_key, .key_press .sample_key, .delay_timer,
      .key_press .left_comparison_key, .feedback_timer] (by decide)).1

/-- Claim C9: a press on a target that is not active in the current substage
(the target shows black, or it is the sample key outside the sample loop, or
a comparison key outside the choice stage) is recorded in the event log as a
non-active press and changes nothing else in the trial state. -/
theorem C9_nonactive_press_only_logs (s : TrialState) (k : KeyTag)
    (h : nonActivePress s k) :
    step s (.key_press k) = { s with log := s.log ++ [nonActiveLabel s k] } := by
  obtain ⟨ht, hcase⟩ := h
  rcases hcase with hblack | ⟨hph2, hnb, hnw, hcase⟩
  · simp [step, ht, key_press, hblack, nonActiveLabel, write_data]
  · rcases hcase with ⟨hk, hst⟩ | ⟨hk, hst⟩
    · subst hk
      simp [step, ht, key_press, hnb, hnw, hph2, sample_key_press, hst,
        nonActiveLabel, write_data]
    · cases k with
      | sample_key => exact absurd rfl hk
      | left_comparison_key =>
        simp [step, ht, key_press, hnb, hnw, hph2, hst, nonActiveLabel,
          write_data]
      | right_comparison_key =>
        simp [step, ht, key_press, hnb, hnw, hph2, hst, nonActiveLabel,
          write_data]

/-- Claim C9 witness: a sample-key press during the delay substage of a
concrete trial is logged as non-active and leaves the state unchanged. -/
theorem C9_nonactive_press_only_logs_witness :
    step (run (initDMTO 1 "Anchor.bmp" "L" "E" "Anchor.bmp" "NA" "NA" 1 1 1)
        [.key_press .sample_key, .key_press .sample_key])
      (.key_press .sample_key)
      = { run (initDMTO 1 "Anchor.bmp" "L" "E" "Anchor.bmp" "NA" "NA" 1 1 1)
            [.key_press .sample_key, .key_press .sample_key] with
          log := (run (initDMTO 1 "Anchor.bmp" "L" "E" "Anchor.bmp" "NA" "NA"
              1 1 1)
            [.key_press .sample_key, .key_press .sample_key]).log
            ++ [nonActiveLabel
                (run (initDMTO 1 "Anchor.bmp" "L" "E" "Anchor.bmp" "NA" "NA"
                    1 1 1)
                  [.key_press .sample_key, .key_press .sample_key])
                .sample_key] } :=
  C9_nonactive_press_only_logs _ .sample_key (by decide)



/-- Claim C5: for stimulus sets 16/17 with a Control-group sample, the
feedback stimulus is the `"TBD"` placeholder from the start of the trial
(the ITI assigns it) up to the choice, and the choice resolves it to the
reserved feedback-if-correct / feedback-if-incorrect stimulus according to
the outcome carried into the feedback stage and the terminal outcome. -/
theorem C5_outcome_deferred_feedback (setNum n counter nonCP : Nat)
    (sample ck ccf cif : String)
    (hset : setNum ∈ ([16, 17] : List Nat))
    (hccf : ccf ≠ "white") (hcif : cif ≠ "white") (evs : List Event) :
    (∀ rowFeedback rowFeedbackPick fb_old : String,
        iti_feedback_stimulus setNum "C" rowFeedback rowFeedbackPick fb_old
          = "TBD")
    ∧ ((run (initDMTO setNum sample ck "C" "TBD" ccf cif n counter nonCP)
          evs).terminal = none →
        (run (initDMTO setNum sample ck "C" "TBD" ccf cif n counter nonCP)
          evs).trial_stage ≤ 3 →
        (run (initDMTO setNum sample ck "C" "TBD" ccf cif n counter nonCP)
          evs).feedback_stimulus = "TBD")
    ∧ ((run (initDMTO setNum sample ck "C" "TBD" ccf cif n counter nonCP)
          evs).pending_feedback = some true →
        (run (initDMTO setNum sample ck "C" "TBD" ccf cif n counter nonCP)
          evs).feedback_stimulus = ccf)
    ∧ ((run (initDMTO setNum sample ck "C" "TBD" ccf cif n counter nonCP)
          evs).pending_feedback = some false →
        (run (initDMTO setNum sample ck "C" "TBD" ccf cif n counter nonCP)
          evs).feedback_stimulus = cif)
    ∧ ((run (initDMTO setNum sample ck "C" "TBD" ccf cif n counter nonCP)
          evs).terminal = some true →
        (run (initDMTO setNum sample ck "C" "TBD" ccf cif n counter nonCP)
          evs).feedback_stimulus = ccf)
    ∧ ((run (initDMTO setNum sample ck "C" "TBD" ccf cif n counter nonCP)
          evs).terminal = some false →
        (run (initDMTO setNum sample ck "C" "TBD" ccf cif n counter nonCP)
          evs).feedback_stimulus = cif) := by
  have hInv := initDMTO_inv setNum sample ck "C" "TBD" ccf cif n counter nonCP
    (by decide) hccf hcif
  have hfb0 : FbInv (initDMTO setNum sample ck "C" "TBD" ccf cif n counter
      nonCP) := by
    rw [initDMTO_explicit]
    exact ⟨fun _ _ => rfl, by simp, by simp, by simp, by simp⟩
  obtain ⟨hFb, hccfC, hcifC⟩ := run_inv16 evs _ hInv
    (by rw [initDMTO_explicit]; exact hset) (by rw [initDMTO_explicit]) hfb0
  have hccf0 : (initDMTO setNum sample ck "C" "TBD" ccf cif n counter
      nonCP).control_correct_feedback = ccf := by rw [initDMTO_explicit]
  have hcif0 : (initDMTO setNum sample ck "C" "TBD" ccf cif n counter
      nonCP).control_incorrect_feedback = cif := by rw [initDMTO_explicit]
  refine ⟨?_, hFb.1, ?_, ?_, ?_, ?_⟩
  · intro rf rfp old
    have hm : setNum = 16 ∨ setNum = 17 := by simpa using hset
    rcases hm with h | h <;> subst h <;> simp [iti_feedback_stimulus]
  · intro hp
    rw [hFb.2.1 hp, hccfC, hccf0]
  · intro hp
    rw [hFb.2.2.1 hp, hcifC, hcif0]
  · intro hp
    rw [hFb.2.2.2.1 hp, hccfC, hccf0]
  · intro hp
    rw [hFb.2.2.2.2 hp, hcifC, hcif0]

/-- Claim C5 witness: a concrete set-16 Control trial with an incorrect
choice resolves the placeholder to the feedback-if-incorrect stimulus. -/
theorem C5_outcome_deferred_feedback_witness :
    (run (initDMTO 16 "Action1.bmp" "R" "C" "TBD" "FbCorrect.bmp"
        "FbIncorrect.bmp" 1 1 1)
      [.key_press .sample_key, .key_press .sample_key, .delay_timer,
        .key_press .left_comparison_key]).feedback_stimulus
      = "FbIncorrect.bmp" :=
  (C5_outcome_deferred_feedback 16 1 1 1 "Action1.bmp" "R" "FbCorrect.bmp"
    "FbIncorrect.bmp" (by decide) (by decide) (by decide)
    [.key_press .sample_key, .key_press .sample_key, .delay_timer,
      .key_press .left_comparison_key]).2.2.2.1 (by decide)

/-- Claim C7: a SampleLoop entered with fixed ratio `n ≥ 1` stays in the
sample stage with the remaining count decremented while fewer than `n` valid
sample presses have occurred, and the `n`-th press leaves it — to the Delay
stage in the DMTO phase (training phase 1) and directly to the Choice stage
in the MTO phase (training phase 0). -/
theorem C7_sample_fixed_ratio (s : TrialState) (n k : Nat)
    (hph : s.training_phase = 0 ∨ s.training_phase = 1)
    (ht : s.terminal = none)
    (hb : s.sample_stimulus ≠ "black") (hw : s.sample_stimulus ≠ "white")
    (hn : 1 ≤ n) (hk : k < n) :
    ((run (sample_key_loop s n)
        (List.replicate k (.key_press .sample_key))).trial_stage = 1
      ∧ (run (sample_key_loop s n)
          (List.replicate k (.key_press .sample_key))).trial_FR = n - k)
    ∧ (run (sample_key_loop s n)
        (List.replicate n (.key_press .sample_key))).trial_stage
        = (if s.training_phase = 1 then 2 else 3) := by
  have hph2 : s.training_phase ≠ 2 := by rcases hph with h | h <;> omega
  constructor
  · rw [sample_press_decrement_run k s n hk hph2 ht hb hw]
    constructor <;>
      simp [sample_key_loop, build_keys, TrialState.calcDict,
        calculate_trial_key_stimuli, hph2]
  · obtain ⟨m, rfl⟩ : ∃ m, n = m + 1 := ⟨n - 1, by omega⟩
    have hsplit : List.replicate (m + 1) (Event.key_press .sample_key)
        = List.replicate m (.key_press .sample_key)
          ++ [.key_press .sample_key] := List.replicate_succ' _ _
    rw [hsplit, run_append,
      sample_press_decrement_run m s (m + 1) (by omega) hph2 ht hb hw]
    have h1 : m + 1 - m = 1 := by omega
    rw [h1]
    show (run _ [Event.key_press .sample_key]).trial_stage = _
    exact sample_press_completes _ hph ht hb hw

/-- Claim C7 witness: fixed ratio 3 — two presses leave the loop in the
sample stage with one response remaining; the third press advances a DMTO
trial to the delay stage. -/
theorem C7_sample_fixed_ratio_witness :
    ((run (sample_key_loop
          (initDMTO 1 "Anchor.bmp" "L" "E" "Anchor.bmp" "NA" "NA" 1 1 1) 3)
        (List.replicate 2 (.key_press .sample_key))).trial_stage = 1
      ∧ (run (sample_key_loop
            (initDMTO 1 "Anchor.bmp" "L" "E" "Anchor.bmp" "NA" "NA" 1 1 1) 3)
          (List.replicate 2 (.key_press .sample_key))).trial_FR = 3 - 2)
    ∧ (run (sample_key_loop
          (initDMTO 1 "Anchor.bmp" "L" "E" "Anchor.bmp" "NA" "NA" 1 1 1) 3)
        (List.replicate 3 (.key_press .sample_key))).trial_stage
        = (if (initDMTO 1 "Anchor.bmp" "L" "E" "Anchor.bmp" "NA" "NA" 1 1
              1).training_phase = 1 then 2 else 3) :=
  C7_sample_fixed_ratio
    (initDMTO 1 "Anchor.bmp" "L" "E" "Anchor.bmp" "NA" "NA" 1 1 1) 3 2
    (by decide) (by decide) (by decide) (by decide) (by decide) (by decide)



/-- Claim C1 (code bug): in `calculate_trial_key_stimuli` (line 1012), a
stimulus-set-1 trial in the Experimental condition shows the grey
control-feedback key during the Feedback substage, not the trial's sample
stimulus — the opposite of the self-pool rule stated by the spec and by the
program's own module docstring ("Birds in the experimental group faced a
re-presentation of the sample color"). -/
theorem C1_set1_experimental_feedback_is_control_color :
    (calculate_trial_key_stimuli 1 4 .sample_key 1 "Anchor.bmp" "E"
        "Anchor.bmp" 1 "white").sample_key = control_feedback_color
    ∧ control_feedback_color ≠ "Anchor.bmp"
    ∧ (∀ sample fb : String, ∀ counter : Nat,
        (calculate_trial_key_stimuli 1 4 .sample_key counter sample "E" fb 1
          "white").sample_key = control_feedback_color) := by
  refine ⟨by decide, by decide, ?_⟩
  intro sample fb counter
  simp [calculate_trial_key_stimuli]

/-- Claim C2 counterexample: with a loaded list holding an `"S"`-marker row
(as in stimulus sets 5-17), one pass contains each eligible stimulus twice,
so an eligible stimulus repeats within the pass. -/
theorem C2_pass_duplicates_counterexample :
    "Action1.bmp" ∈ eligibleNames
        [⟨"Action1.bmp", "L"⟩, ⟨"Action2.bmp", "R"⟩, ⟨"FbCorrect.bmp", "S.1"⟩]
    ∧ (set_of_trials
        [⟨"Action1.bmp", "L"⟩, ⟨"Action2.bmp", "R"⟩,
          ⟨"FbCorrect.bmp", "S.1"⟩]).count "Action1.bmp" = 2 := by
  decide

/-- Claim C2 (amended): within one appended pass every trial-eligible
stimulus appears the same number of times (the inner loop appends whole
sweeps of the eligible names), and when every loaded row is trial-eligible —
no `"S"`-marker rows, as in sets 1-4 after marker removal — that number is
exactly one.  `shuffle` permutes the pass, so these element counts carry over
to the shuffled pass that is appended to the session queue. -/
theorem C2_pass_balanced (rows : List StimIdRow)
    (hnd : (eligibleNames rows).Nodup) :
    (∀ a ∈ eligibleNames rows, ∀ b ∈ eligibleNames rows,
        (set_of_trials rows).count a = (set_of_trials rows).count b)
    ∧ ((∀ r ∈ rows, keyHasS r.Key = false) →
        ∀ a ∈ eligibleNames rows, (set_of_trials rows).count a = 1) := by
  constructor
  · intro a ha b hb
    obtain ⟨j, hj⟩ := set_of_trials_loop_shape (eligibleNames rows)
      rows.length (rows.length + 1) []
    unfold set_of_trials
    rw [hj]
    simp [count_join_replicate, List.count_eq_one_of_mem hnd ha,
      List.count_eq_one_of_mem hnd hb]
  · intro hall a ha
    have hfil : rows.filter (fun r => ! keyHasS r.Key) = rows := by
      rw [List.filter_eq_self]
      intro r hr
      simp [hall r hr]
    have hlen : (eligibleNames rows).length = rows.length := by
      unfold eligibleNames
      rw [hfil, List.length_map]
    have hne : eligibleNames rows ≠ [] := by
      intro hnil
      rw [hnil] at ha
      cases ha
    have hpos : 0 < rows.length := by
      rw [← hlen]
      exact List.length_pos.mpr hne
    obtain ⟨m, hm⟩ : ∃ m, rows.length = m + 1 := ⟨rows.length - 1, by omega⟩
    have hlen' : (eligibleNames rows).length = m + 1 := by rw [hlen, hm]
    have hcalc : set_of_trials rows = eligibleNames rows := by
      unfold set_of_trials
      rw [hm]
      simp [set_of_trials_loop, hlen']
    rw [hcalc]
    exact List.count_eq_one_of_mem hnd ha

/-- Claim C2 witness: a configuration whose rows are all trial-eligible has
uniform counts, each equal to one. -/
theorem C2_pass_balanced_witness :
    ((set_of_trials [⟨"Anchor.bmp", "L"⟩, ⟨"Bell.bmp", "R"⟩]).count
        "Anchor.bmp"
      = (set_of_trials [⟨"Anchor.bmp", "L"⟩, ⟨"Bell.bmp", "R"⟩]).count
        "Bell.bmp")
    ∧ (set_of_trials [⟨"Anchor.bmp", "L"⟩, ⟨"Bell.bmp", "R"⟩]).count
        "Anchor.bmp" = 1 := by
  have h := C2_pass_balanced [⟨"Anchor.bmp", "L"⟩, ⟨"Bell.bmp", "R"⟩]
    (by decide)
  exact ⟨h.1 "Anchor.bmp" (by decide) "Bell.bmp" (by decide),
    h.2 (by decide) "Anchor.bmp" (by decide)⟩

/-- Claim C4 (code bug): the per-trial delay duration is drawn during the ITI
from `choice(list(range(2,5))) * 1000`, i.e. from {2, 3, 4} seconds — a 5 s
delay is impossible, although the claim (and the program's own docstring,
"either 2, 3, 4, or 5 s") lists 5 as a possible outcome. -/
theorem C4_delay_durations_exclude_five :
    trial_delay_duration_choices = [2000, 3000, 4000]
    ∧ 5 * 1000 ∉ trial_delay_duration_choices
    ∧ pythonRange 2 5 = [2, 3, 4] := by
  decide

/-- Claim C6 counterexample: the sample key is in the autoshaping draw list
from the very first trial (counter 1 ≤ 15), and after the threshold it is
listed twice among four entries, so the draw is not uniform over the three
targets. -/
theorem C6_autoshaping_options_counterexample :
    ("sample_key" ∈ as_options 1 ∧ 1 ≤ 15)
    ∧ (as_options 16).count "sample_key" = 2
    ∧ (as_options 16).length = 4 := by
  decide

/-- Claim C6 (amended): all three targets are eligible for illumination from
the first autoshaping trial; once more than 15 trials have elapsed the
sample key is appended a second time, so the uniform draw over the option
list selects the sample key with probability 1/2 and each comparison key
with probability 1/4. -/
theorem C6_autoshaping_option_counts (n : Nat) :
    (as_options n).length = (if n > 15 then 4 else 3)
    ∧ (as_options n).count "left_comparison_key" = 1
    ∧ (as_options n).count "right_comparison_key" = 1
    ∧ (as_options n).count "sample_key" = (if n > 15 then 2 else 1) := by
  unfold as_options
  by_cases h : n > 15 <;> simp [h]

/-- Claim C8: the ITI termination check is true exactly when the
non-correction trial counter exceeds the 96-trial budget; the counter starts
at 1 and both terminal outcomes increment it, so the check first fires at the
ITI after the 96th completed non-correction trial; session end appends a
`"SessionEnds"` record and flushes the whole accumulated frame. -/
theorem C8_session_termination :
    (∀ n : Nat, shouldTerminate n = true ↔ max_number_of_reinforced_trials < n)
    ∧ (∀ k : Nat, shouldTerminate (init_non_CP_trials + k) = true ↔ 96 ≤ k)
    ∧ (∀ s : TrialState, (provide_food s true).non_CP_trials
        = s.non_CP_trials + 1)
    ∧ (∀ s : TrialState, (time_out_func s).non_CP_trials
        = s.non_CP_trials + 1)
    ∧ (∀ s : TrialState, (write_comp_data s true).2
        = s.log ++ ["SessionEnds"]) := by
  refine ⟨?_, ?_, ?_, ?_, ?_⟩
  · intro n
    simp [shouldTerminate]
  · intro k
    simp only [shouldTerminate, init_non_CP_trials,
      max_number_of_reinforced_trials, decide_eq_true_eq]
    omega
  · intro s
    simp [provide_food, write_data]
  · intro s
    simp [time_out_func, write_data]
  · intro s
    simp [write_comp_data, write_data]

/-- Claim C10: every appended event row carries the same value in its
`StimulusCondition` and `ExpCondition` columns — both copy
`self.exp_condition` — and once a trial's ITI has selected a sample the
variable holds the one-letter group tag of a matching row (a `"C"`/`"E"`
letter when the table is well-formed), so the numeric counterbalance group
is not recoverable from either column. -/
theorem C10_condition_columns_copy_exp_condition (s : TrialState)
    (x y outcome sessionTime : String) (trialTime subTimer : Int)
    (delayDur : Nat) (feedbackDur subject dateStr : String)
    (rows : List StimFullRow) (sample cond0 : String)
    (hgroups : ∀ r ∈ rows, r.Group.take 1 = "C" ∨ r.Group.take 1 = "E")
    (hmem : ∃ r ∈ rows, r.Name = sample) :
    ((write_data_row s x y outcome sessionTime trialTime subTimer delayDur
        feedbackDur subject dateStr).stimulusCondition
      = (write_data_row s x y outcome sessionTime trialTime subTimer delayDur
        feedbackDur subject dateStr).expCondition)
    ∧ (write_data_row s x y outcome sessionTime trialTime subTimer delayDur
        feedbackDur subject dateStr).expCondition = s.exp_condition
    ∧ (iti_assign_condition rows sample cond0 = "C"
        ∨ iti_assign_condition rows sample cond0 = "E") := by
  refine ⟨rfl, rfl, ?_⟩
  obtain ⟨r, hr, _, heq⟩ := iti_assign_condition_match sample rows cond0 hmem
  rw [heq]
  exact hgroups r hr

/-- Claim C10 witness: a concrete row table and trial state. -/
theorem C10_condition_columns_copy_exp_condition_witness :
    ((write_data_row
        (initDMTO 16 "Action1.bmp" "R" "C" "TBD" "FbC.bmp" "FbI.bmp" 1 1 1)
        "NA" "NA" "correct_choice" "0:00:01" 1 1 2000 "NA" "TEST"
        "24-10-18").stimulusCondition
      = (write_data_row
        (initDMTO 16 "Action1.bmp" "R" "C" "TBD" "FbC.bmp" "FbI.bmp" 1 1 1)
        "NA" "NA" "correct_choice" "0:00:01" 1 1 2000 "NA" "TEST"
        "24-10-18").expCondition)
    ∧ (write_data_row
        (initDMTO 16 "Action1.bmp" "R" "C" "TBD" "FbC.bmp" "FbI.bmp" 1 1 1)
        "NA" "NA" "correct_choice" "0:00:01" 1 1 2000 "NA" "TEST"
        "24-10-18").expCondition
      = (initDMTO 16 "Action1.bmp" "R" "C" "TBD" "FbC.bmp" "FbI.bmp" 1 1
          1).exp_condition
    ∧ (iti_assign_condition
        [⟨"Action1.bmp", "L", "C.1"⟩, ⟨"Action2.bmp", "R", "E.1"⟩]
        "Action1.bmp" "1" = "C"
      ∨ iti_assign_condition
        [⟨"Action1.bmp", "L", "C.1"⟩, ⟨"Action2.bmp", "R", "E.1"⟩]
        "Action1.bmp" "1" = "E") :=
  C10_condition_columns_copy_exp_condition
    (initDMTO 16 "Action1.bmp" "R" "C" "TBD" "FbC.bmp" "FbI.bmp" 1 1 1)
    "NA" "NA" "correct_choice" "0:00:01" 1 1 2000 "NA" "TEST" "24-10-18"
    [⟨"Action1.bmp", "L", "C.1"⟩, ⟨"Action2.bmp", "R", "E.1"⟩]
    "Action1.bmp" "1" (by decide) (by decide)

end P034
